import Mathlib

/-!
# Verification of the retryable transaction executor (`example.py`)

This file gives a shallow embedding of the program's core, the
`run_transaction` retry loop, together with the sample workload
(`create_accounts`, `transfer_funds`, and the transfer scenario of `main`),
and proves the stated properties about them.

The unit of work is modelled by its outcome on each attempt index
(`UowOutcome`): it can succeed, raise a retryable serialization failure,
raise some other database error (`psycopg.Error`, carrying its message), or
raise a business-rule error (`RuntimeError`, carrying its message).
`run_transaction` consumes such a behaviour together with a stream of random
draws (one rational in `[0,1)` per attempt, standing for `random.random()`),
and returns its final result together with the trace of observable session
events: unit-of-work invocations, explicit rollbacks, sleeps (with their
computed duration in seconds as a rational), the transaction begun by the
`with conn.transaction()` scope at entry, and the commit (normal exit) or
rollback (exceptional exit) performed by that scope.
-/

/-- Outcome of one invocation of the unit of work `op(conn)`. -/
inductive UowOutcome
  | success
  | serializationFailure
  | dbError (e : String)
  | businessError (msg : String)
  deriving DecidableEq, Repr

/-- Final result of one `run_transaction` call. -/
inductive RunResult
  | committed
  | fatalError (e : String)
  | businessFailure (msg : String)
  | retriesExhausted (maxRetries : Nat)
  deriving DecidableEq, Repr

/-- Observable session events during a `run_transaction` call. -/
inductive Event
  | beginTxn
  | invoke
  | rollback
  | sleep (seconds : ℚ)
  | commitTxn
  | rollbackExit
  deriving DecidableEq, Repr

/-- `sleep_seconds = (2**retry) * 0.1 * (random.random() + 0.5)` from the
source, with the random draw `r` made explicit. -/
def sleep_seconds (retry : Nat) (r : ℚ) : ℚ :=
  (2 ^ retry) * (1 / 10) * (r + 1 / 2)

/-- The `for retry in range(1, max_retries + 1)` loop body of
`run_transaction`: `retry` is the current attempt index and `rem` the number
of attempts still allowed (`max_retries + 1 - retry`).  On success the loop
returns; on a serialization failure it rolls back, sleeps, and continues; on
any other database error it re-raises; a business error propagates out of
both `except` branches.  When the loop exhausts its range it raises
`ValueError` (modelled by `RunResult.retriesExhausted`). -/
def runLoop (op : Nat → UowOutcome) (rand : Nat → ℚ) (maxRetries : Nat) :
    Nat → Nat → RunResult × List Event
  | _, 0 => (.retriesExhausted maxRetries, [])
  | retry, rem + 1 =>
    match op retry with
    | .success => (.committed, [.invoke])
    | .serializationFailure =>
      let r := runLoop op rand maxRetries (retry + 1) rem
      (r.1, .invoke :: .rollback :: .sleep (sleep_seconds retry (rand retry)) :: r.2)
    | .dbError e => (.fatalError e, [.invoke])
    | .businessError msg => (.businessFailure msg, [.invoke])

/-- Whether a transaction is open after one event, given whether one was open
before it.  The scope entry begins a transaction; an invocation of the unit
of work (re)opens one implicitly if none is open; `conn.rollback()`, the
scope's commit and the scope's rollback-on-exception close it. -/
def stepOpen (st : Bool) : Event → Bool
  | .beginTxn => true
  | .invoke => true
  | .rollback => false
  | .sleep _ => st
  | .commitTxn => false
  | .rollbackExit => false

/-- Whether a transaction is open after a trace of events. -/
def openAfter (st : Bool) (t : List Event) : Bool :=
  t.foldl stepOpen st

/-- `run_transaction(conn, op, max_retries=3)`: the whole call, `with
conn.transaction()` included.  The scope opens a transaction at entry;
leaving the block normally commits, leaving it with an exception rolls back
whatever transaction is still open. -/
def run_transaction (op : Nat → UowOutcome) (rand : Nat → ℚ)
    (maxRetries : Nat := 3) : RunResult × List Event :=
  let r := runLoop op rand maxRetries 1 maxRetries
  let body := Event.beginTxn :: r.2
  match r.1 with
  | .committed => (.committed, body ++ [.commitTxn])
  | res => (res, if openAfter false body then body ++ [.rollbackExit] else body)

/-- The message of the error raised by `run_transaction`, if any.
`retriesExhausted` carries the f-string of the `ValueError` in the source. -/
def errorMessage : RunResult → Option String
  | .committed => none
  | .fatalError e => some e
  | .businessFailure msg => some msg
  | .retriesExhausted n =>
    some ("transaction did not succeed after " ++ toString n ++ " retries")

/-- Number of unit-of-work invocations in a trace. -/
def invocations (t : List Event) : Nat :=
  t.countP fun e => match e with | .invoke => true | _ => false

/-- Number of explicit `conn.rollback()` calls in a trace. -/
def rollbacks (t : List Event) : Nat :=
  t.countP fun e => match e with | .rollback => true | _ => false

/-- Number of sleeps in a trace. -/
def sleeps (t : List Event) : Nat :=
  t.countP fun e => match e with | .sleep _ => true | _ => false

/-- Number of commits in a trace. -/
def commits (t : List Event) : Nat :=
  t.countP fun e => match e with | .commitTxn => true | _ => false

/-- The trace fragment produced by `k` consecutive serialization failures
starting at attempt index `retry`: each failed attempt invokes the unit of
work, rolls back, and sleeps for its backoff duration. -/
def failTraceFrom (rand : Nat → ℚ) : Nat → Nat → List Event
  | _, 0 => []
  | retry, k + 1 =>
    .invoke :: .rollback :: .sleep (sleep_seconds retry (rand retry)) ::
      failTraceFrom rand (retry + 1) k

/-! ## Counting lemmas -/

theorem invocations_append (t₁ t₂ : List Event) :
    invocations (t₁ ++ t₂) = invocations t₁ + invocations t₂ :=
  List.countP_append ..

theorem rollbacks_append (t₁ t₂ : List Event) :
    rollbacks (t₁ ++ t₂) = rollbacks t₁ + rollbacks t₂ :=
  List.countP_append ..

theorem sleeps_append (t₁ t₂ : List Event) :
    sleeps (t₁ ++ t₂) = sleeps t₁ + sleeps t₂ :=
  List.countP_append ..

theorem commits_append (t₁ t₂ : List Event) :
    commits (t₁ ++ t₂) = commits t₁ + commits t₂ :=
  List.countP_append ..

theorem invocations_failTraceFrom (rand : Nat → ℚ) :
    ∀ k retry, invocations (failTraceFrom rand retry k) = k := by
  intro k
  induction k with
  | zero => intro retry; rfl
  | succ k ih =>
    intro retry
    simp [failTraceFrom, invocations, List.countP_cons] at ih ⊢
    exact ih (retry + 1)

theorem rollbacks_failTraceFrom (rand : Nat → ℚ) :
    ∀ k retry, rollbacks (failTraceFrom rand retry k) = k := by
  intro k
  induction k with
  | zero => intro retry; rfl
  | succ k ih =>
    intro retry
    simp [failTraceFrom, rollbacks, List.countP_cons] at ih ⊢
    exact ih (retry + 1)

theorem sleeps_failTraceFrom (rand : Nat → ℚ) :
    ∀ k retry, sleeps (failTraceFrom rand retry k) = k := by
  intro k
  induction k with
  | zero => intro retry; rfl
  | succ k ih =>
    intro retry
    simp [failTraceFrom, sleeps, List.countP_cons] at ih ⊢
    exact ih (retry + 1)

theorem commits_failTraceFrom (rand : Nat → ℚ) :
    ∀ k retry, commits (failTraceFrom rand retry k) = 0 := by
  intro k
  induction k with
  | zero => intro retry; rfl
  | succ k ih =>
    intro retry
    simp [failTraceFrom, commits, List.countP_cons] at ih ⊢
    exact ih (retry + 1)

/-- After `k ≥ 1` consecutive failures the explicit `conn.rollback()` of the
last failure has closed the transaction (the trailing sleep leaves it
closed). -/
theorem openAfter_failTraceFrom (rand : Nat → ℚ) :
    ∀ k retry st, openAfter st (failTraceFrom rand retry (k + 1)) = false := by
  intro k
  induction k with
  | zero => intro retry st; rfl
  | succ k ih =>
    intro retry st
    show openAfter false (failTraceFrom rand (retry + 1) (k + 1)) = false
    exact ih (retry + 1) false

theorem eventGetLast?_cons (a : Event) (l : List Event) (h : l ≠ []) :
    (a :: l).getLast? = l.getLast? := by
  cases l with
  | nil => exact absurd rfl h
  | cons b bs => exact List.getLast?_cons_cons ..

theorem failTraceFrom_ne_nil (rand : Nat → ℚ) (k retry : Nat) :
    failTraceFrom rand retry (k + 1) ≠ [] := by
  simp [failTraceFrom]

theorem getLast?_failTraceFrom (rand : Nat → ℚ) :
    ∀ k retry, (failTraceFrom rand retry (k + 1)).getLast? =
      some (.sleep (sleep_seconds (retry + k) (rand (retry + k)))) := by
  intro k
  induction k with
  | zero => intro retry; rfl
  | succ k ih =>
    intro retry
    have h := ih (retry + 1)
    have harr : retry + 1 + k = retry + (k + 1) := by omega
    rw [harr] at h
    have hne := failTraceFrom_ne_nil rand k (retry + 1)
    show (Event.invoke :: Event.rollback ::
        Event.sleep (sleep_seconds retry (rand retry)) ::
        failTraceFrom rand (retry + 1) (k + 1)).getLast? = _
    rw [eventGetLast?_cons _ _ (by simp [hne]),
      eventGetLast?_cons _ _ (by simp [hne]),
      eventGetLast?_cons _ _ hne]
    exact h

/-! ## The retry loop on pure failure patterns -/

/-- If every attempt raises a serialization failure, the loop runs through
all its remaining attempts, producing one invoke/rollback/sleep triple per
attempt and ending in the retries-exhausted error. -/
theorem runLoop_allFail (op : Nat → UowOutcome) (rand : Nat → ℚ)
    (maxRetries : Nat) (hfail : ∀ i, op i = .serializationFailure) :
    ∀ rem retry, runLoop op rand maxRetries retry rem =
      (.retriesExhausted maxRetries, failTraceFrom rand retry rem) := by
  intro rem
  induction rem with
  | zero => intro retry; rfl
  | succ rem ih =>
    intro retry
    simp only [runLoop, hfail retry, ih (retry + 1), failTraceFrom]

/-- If the first `k` attempts starting at `retry` raise serialization
failures and attempt `retry + k` succeeds (with `k` attempts of slack left),
the loop commits after the `k` failure triples and one final invocation. -/
theorem runLoop_failThenSucceed (op : Nat → UowOutcome) (rand : Nat → ℚ)
    (maxRetries : Nat) :
    ∀ k retry rem, k < rem →
      (∀ j, j < k → op (retry + j) = .serializationFailure) →
      op (retry + k) = .success →
      runLoop op rand maxRetries retry rem =
        (.committed, failTraceFrom rand retry k ++ [.invoke]) := by
  intro k
  induction k with
  | zero =>
    intro retry rem hlt hfail hsucc
    obtain ⟨r, rfl⟩ : ∃ r, rem = r + 1 := ⟨rem - 1, by omega⟩
    have h0 : op retry = .success := by simpa using hsucc
    simp [runLoop, h0, failTraceFrom]
  | succ k ih =>
    intro retry rem hlt hfail hsucc
    obtain ⟨r, rfl⟩ : ∃ r, rem = r + 1 := ⟨rem - 1, by omega⟩
    have h0 : op retry = .serializationFailure := by
      simpa using hfail 0 (by omega)
    have hfail' : ∀ j, j < k → op (retry + 1 + j) = .serializationFailure := by
      intro j hj
      have harr : retry + 1 + j = retry + (j + 1) := by omega
      rw [harr]
      exact hfail (j + 1) (by omega)
    have hsucc' : op (retry + 1 + k) = .success := by
      have harr : retry + 1 + k = retry + (k + 1) := by omega
      rw [harr]; exact hsucc
    have hrec := ih (retry + 1) r (by omega) hfail' hsucc'
    simp [runLoop, h0, hrec, failTraceFrom]

/-! ## Transaction-scope discipline -/

/-- Which events are legal given whether a transaction is currently open:
a transaction may only be begun when none is open (so at most one is ever
open), and commit / rollback only act on an open transaction. -/
def legal (st : Bool) : Event → Bool
  | .beginTxn => !st
  | .invoke => true
  | .rollback => st
  | .sleep _ => true
  | .commitTxn => st
  | .rollbackExit => st

/-- A trace is scope-legal from state `st` when every event is legal in the
state reached before it. -/
def legalTrace (st : Bool) : List Event → Bool
  | [] => true
  | e :: rest => legal st e && legalTrace (stepOpen st e) rest

theorem openAfter_append (st : Bool) (t₁ t₂ : List Event) :
    openAfter st (t₁ ++ t₂) = openAfter (openAfter st t₁) t₂ :=
  List.foldl_append ..

theorem legalTrace_append (t₁ t₂ : List Event) :
    ∀ st, legalTrace st (t₁ ++ t₂) =
      (legalTrace st t₁ && legalTrace (openAfter st t₁) t₂) := by
  induction t₁ with
  | nil => intro st; simp [legalTrace, openAfter]
  | cons e rest ih =>
    intro st
    have hopen : openAfter st (e :: rest) = openAfter (stepOpen st e) rest := rfl
    simp only [List.cons_append, legalTrace, hopen, Bool.and_assoc]
    exact congrArg (legal st e && ·) (ih (stepOpen st e))

/-- Whether a transaction is open after the inner loop's trace, as a function
of the loop's result, its remaining-attempt budget, and the entry state:
only a zero-budget loop leaves the state untouched; exhausting a positive
budget ends just after a rollback-and-sleep (closed); every other outcome
ends on an invocation (open). -/
def loopOpen (res : RunResult) (rem : Nat) (st : Bool) : Bool :=
  match res, rem with
  | .retriesExhausted _, 0 => st
  | .retriesExhausted _, _ + 1 => false
  | _, _ => true

/-- The inner retry loop is scope-legal from any state and its final
open/closed state is `loopOpen` of the result. -/
theorem runLoop_scope (op : Nat → UowOutcome) (rand : Nat → ℚ)
    (maxRetries : Nat) :
    ∀ rem retry st,
      legalTrace st (runLoop op rand maxRetries retry rem).2 = true ∧
      openAfter st (runLoop op rand maxRetries retry rem).2 =
        loopOpen (runLoop op rand maxRetries retry rem).1 rem st := by
  intro rem
  induction rem with
  | zero => intro retry st; exact ⟨rfl, rfl⟩
  | succ rem ih =>
    intro retry st
    cases hop : op retry with
    | success => simp [runLoop, hop, legalTrace, legal, openAfter, stepOpen, loopOpen]
    | serializationFailure =>
      obtain ⟨hleg, hopen⟩ := ih (retry + 1) false
      constructor
      · simp only [runLoop, hop]
        simp [legalTrace, legal, stepOpen, hleg]
      · simp only [runLoop, hop]
        show openAfter false (runLoop op rand maxRetries (retry + 1) rem).2 = _
        rw [hopen]
        cases hres : (runLoop op rand maxRetries (retry + 1) rem).1 <;>
          cases rem <;> simp [loopOpen]
    | dbError e => simp [runLoop, hop, legalTrace, legal, openAfter, stepOpen, loopOpen]
    | businessError msg =>
      simp [runLoop, hop, legalTrace, legal, openAfter, stepOpen, loopOpen]

/-- The inner retry loop never commits: the only commit of a call is the one
performed by the transaction scope on normal exit. -/
theorem commits_runLoop (op : Nat → UowOutcome) (rand : Nat → ℚ)
    (maxRetries : Nat) :
    ∀ rem retry, commits (runLoop op rand maxRetries retry rem).2 = 0 := by
  intro rem
  induction rem with
  | zero => intro retry; rfl
  | succ rem ih =>
    intro retry
    cases hop : op retry with
    | serializationFailure =>
      have h := ih (retry + 1)
      simp only [runLoop, hop]
      simp [commits, List.countP_cons] at h ⊢
      exact h
    | success => simp [runLoop, hop, commits, List.countP_cons]
    | dbError e => simp [runLoop, hop, commits, List.countP_cons]
    | businessError msg => simp [runLoop, hop, commits, List.countP_cons]

/-! ## Control-flow determinism machinery -/

/-- A trace with the sleep durations erased: the control-flow skeleton. -/
def controlTrace : List Event → List Event
  | [] => []
  | .sleep _ :: rest => .sleep 0 :: controlTrace rest
  | e :: rest => e :: controlTrace rest

theorem controlTrace_append (t₁ t₂ : List Event) :
    controlTrace (t₁ ++ t₂) = controlTrace t₁ ++ controlTrace t₂ := by
  induction t₁ with
  | nil => rfl
  | cons e rest ih => cases e <;> simp [controlTrace, ih]

theorem openAfter_controlTrace (t : List Event) :
    ∀ st, openAfter st (controlTrace t) = openAfter st t := by
  induction t with
  | nil => intro st; rfl
  | cons e rest ih =>
    intro st
    cases e <;> simp [controlTrace, openAfter, stepOpen] <;> exact ih _

theorem invocations_controlTrace (t : List Event) :
    invocations (controlTrace t) = invocations t := by
  induction t with
  | nil => rfl
  | cons e rest ih => cases e <;> simp [controlTrace, invocations, List.countP_cons] at ih ⊢ <;> exact ih

theorem rollbacks_controlTrace (t : List Event) :
    rollbacks (controlTrace t) = rollbacks t := by
  induction t with
  | nil => rfl
  | cons e rest ih => cases e <;> simp [controlTrace, rollbacks, List.countP_cons] at ih ⊢ <;> exact ih

theorem sleeps_controlTrace (t : List Event) :
    sleeps (controlTrace t) = sleeps t := by
  induction t with
  | nil => rfl
  | cons e rest ih => cases e <;> simp [controlTrace, sleeps, List.countP_cons] at ih ⊢ <;> exact ih

/-- The loop's result and control-flow skeleton do not depend on the random
draws. -/
theorem runLoop_rand_independent (op : Nat → UowOutcome) (r₁ r₂ : Nat → ℚ)
    (maxRetries : Nat) :
    ∀ rem retry,
      (runLoop op r₁ maxRetries retry rem).1 =
        (runLoop op r₂ maxRetries retry rem).1 ∧
      controlTrace (runLoop op r₁ maxRetries retry rem).2 =
        controlTrace (runLoop op r₂ maxRetries retry rem).2 := by
  intro rem
  induction rem with
  | zero => intro retry; exact ⟨rfl, rfl⟩
  | succ rem ih =>
    intro retry
    obtain ⟨h1, h2⟩ := ih (retry + 1)
    cases hop : op retry <;> simp [runLoop, hop, controlTrace, h1, h2]

/-! ## The sample workload: accounts and `transfer_funds` -/

/-- The two accounts created by `create_accounts` (their UUIDs are modelled
by fixed identifiers; `acct1` is the one created with balance 1000, `acct2`
the one with balance 250). -/
inductive AccountId
  | acct1
  | acct2
  deriving DecidableEq, Repr

/-- A printable stand-in for the account's UUID in error messages. -/
def accountName : AccountId → String
  | .acct1 => "account-1"
  | .acct2 => "account-2"

/-- A balance table mapping each account to its balance. -/
def balanceTable (b1 b2 : Int) : AccountId → Int
  | .acct1 => b1
  | .acct2 => b2

/-- `create_accounts`: upserts the two rows `(id1, 1000)` and `(id2, 250)`. -/
def create_accounts : AccountId → Int := balanceTable 1000 250

/-- `transfer_funds(conn, frm, to, amount)`: reads the source balance, raises
`RuntimeError` (the business error) when it is below `amount`, otherwise
debits `frm` and then credits `to`.  The new table is only produced on
success; on the error the transaction is rolled back by the enclosing scope,
so no balances change. -/
def transfer_funds (accts : AccountId → Int) (frm dst : AccountId)
    (amount : Int) : Except String (AccountId → Int) :=
  let from_balance := accts frm
  if from_balance < amount then
    .error ("insufficient funds in " ++ accountName frm ++ ": have " ++
      toString from_balance ++ ", need " ++ toString amount)
  else
    let afterDebit : AccountId → Int :=
      fun a => if a = frm then accts a - amount else accts a
    let afterCredit : AccountId → Int :=
      fun a => if a = dst then afterDebit a + amount else afterDebit a
    .ok afterCredit

/-- `ids = create_accounts(conn)` returns `[id1, id2]` in creation order. -/
def mainIds : List AccountId := [.acct1, .acct2]

/-- `toId = ids.pop()`: the last element of `ids`. -/
def mainToId : AccountId := mainIds.getLast?.getD .acct1

/-- `fromId = ids.pop()`: the last element of what remains of `ids`. -/
def mainFromId : AccountId := mainIds.dropLast.getLast?.getD .acct2

/-- `amount = 100` in `main`. -/
def mainAmount : Int := 100

/-- The transfer performed by `main`:
`transfer_funds(conn, fromId, toId, amount)`. -/
def mainTransfer : Except String (AccountId → Int) :=
  transfer_funds create_accounts mainFromId mainToId mainAmount

/-- The pair of final balances `(balance of acct1, balance of acct2)` of a
transfer result, or `none` when the transfer raised the business error. -/
def resultBalances (r : Except String (AccountId → Int)) :
    Option (Int × Int) :=
  match r with
  | .ok f => some (f .acct1, f .acct2)
  | .error _ => none

/-- The business-error message of a transfer result, if any. -/
def transferError (r : Except String (AccountId → Int)) : Option String :=
  match r with
  | .ok _ => none
  | .error msg => some msg


/-! ## The claims -/

/-- C3, counterexample: the claim asserts the sleep duration lies in
`[2^attempt * 0.1 * 0.5, 2^attempt * 0.1 * 1.0)` for every random draw in
`[0, 1)`; the draw `0.6` at attempt 1 gives `2 * 0.1 * 1.1 = 0.22`, which is
not below the claimed upper bound `2 * 0.1 * 1.0 = 0.2`. -/
theorem sleep_seconds_counterexample :
    ((0 : ℚ) ≤ 3 / 5 ∧ (3 / 5 : ℚ) < 1) ∧
      ¬ sleep_seconds 1 (3 / 5) < 2 ^ (1 : Nat) * (1 / 10) * 1 := by
  norm_num [sleep_seconds]

/-- C3 (amended): for every attempt and every random draw in `[0, 1)`, the
computed sleep duration equals `2^attempt * 0.1` multiplied by the jitter
factor `r + 0.5`, and lies in the half-open interval
`[2^attempt * 0.1 * 0.5, 2^attempt * 0.1 * 1.5)`. -/
theorem sleep_seconds_bounds (retry : Nat) (r : ℚ) (h0 : 0 ≤ r)
    (h1 : r < 1) :
    sleep_seconds retry r = 2 ^ retry * (1 / 10) * (r + 1 / 2) ∧
      2 ^ retry * (1 / 10) * (1 / 2) ≤ sleep_seconds retry r ∧
      sleep_seconds retry r < 2 ^ retry * (1 / 10) * (3 / 2) := by
  have hp : (0 : ℚ) < 2 ^ retry * (1 / 10) := by positivity
  refine ⟨rfl, ?_, ?_⟩
  · exact mul_le_mul_of_nonneg_left (by linarith) hp.le
  · exact mul_lt_mul_of_pos_left (by linarith) hp

/-- Witness for C3 (amended) at attempt 1 with draw `1/2`. -/
theorem sleep_seconds_bounds_witness :
    sleep_seconds 1 (1 / 2) = 2 ^ 1 * (1 / 10) * (1 / 2 + 1 / 2) ∧
      2 ^ 1 * (1 / 10) * (1 / 2) ≤ sleep_seconds 1 (1 / 2) ∧
      sleep_seconds 1 (1 / 2) < 2 ^ 1 * (1 / 10) * (3 / 2) :=
  sleep_seconds_bounds 1 (1 / 2) (by norm_num) (by norm_num)

/-- C10: with `max_retries = 0` the `range(1, 1)` loop body never runs: the
unit of work is never invoked, no sleep happens, and the `ValueError` naming
0 retries is raised at once; the transaction opened by the scope is rolled
back on that exceptional exit. -/
theorem run_transaction_zero_budget (op : Nat → UowOutcome)
    (rand : Nat → ℚ) :
    run_transaction op rand 0 =
      (.retriesExhausted 0, [.beginTxn, .rollbackExit]) ∧
    invocations (run_transaction op rand 0).2 = 0 ∧
    sleeps (run_transaction op rand 0).2 = 0 ∧
    errorMessage (run_transaction op rand 0).1 =
      some "transaction did not succeed after 0 retries" :=
  ⟨rfl, rfl, rfl, rfl⟩

/-- C4: a non-retryable database error on the first invocation is re-raised
unchanged by the second `except` branch: one invocation, no sleep, no
explicit rollback, and the scope rolls the transaction back on exit. -/
theorem run_transaction_fatal_error (op : Nat → UowOutcome) (rand : Nat → ℚ)
    (maxRetries : Nat) (e : String) (h1 : op 1 = .dbError e)
    (hm : 1 ≤ maxRetries) :
    run_transaction op rand maxRetries =
      (.fatalError e, [.beginTxn, .invoke, .rollbackExit]) ∧
    invocations (run_transaction op rand maxRetries).2 = 1 ∧
    sleeps (run_transaction op rand maxRetries).2 = 0 ∧
    rollbacks (run_transaction op rand maxRetries).2 = 0 ∧
    errorMessage (run_transaction op rand maxRetries).1 = some e := by
  obtain ⟨m, rfl⟩ : ∃ m, maxRetries = m + 1 := ⟨maxRetries - 1, by omega⟩
  have hloop : runLoop op rand (m + 1) 1 (m + 1) = (.fatalError e, [.invoke]) := by
    simp [runLoop, h1]
  have htr : run_transaction op rand (m + 1) =
      (.fatalError e, [.beginTxn, .invoke, .rollbackExit]) := by
    simp only [run_transaction, hloop]
    rfl
  rw [htr]
  refine ⟨rfl, rfl, rfl, rfl, rfl⟩

/-- Witness for C4 with an always-fatal unit of work and `max_retries = 1`. -/
theorem run_transaction_fatal_error_witness :
    run_transaction (fun _ => .dbError "boom") (fun _ => 1 / 2) 1 =
      (.fatalError "boom", [.beginTxn, .invoke, .rollbackExit]) ∧
    invocations (run_transaction (fun _ => .dbError "boom")
      (fun _ => 1 / 2) 1).2 = 1 ∧
    sleeps (run_transaction (fun _ => .dbError "boom")
      (fun _ => 1 / 2) 1).2 = 0 ∧
    rollbacks (run_transaction (fun _ => .dbError "boom")
      (fun _ => 1 / 2) 1).2 = 0 ∧
    errorMessage (run_transaction (fun _ => .dbError "boom")
      (fun _ => 1 / 2) 1).1 = some "boom" :=
  run_transaction_fatal_error (fun _ => .dbError "boom") (fun _ => 1 / 2)
    1 "boom" rfl (by omega)

/-- C5: a business error (`RuntimeError`) matches neither `except` branch of
the retry loop: it propagates unchanged after a single invocation, with no
sleep and no explicit rollback, and does not consume further attempts; the
scope rolls the transaction back on that exceptional exit. -/
theorem run_transaction_business_error (op : Nat → UowOutcome)
    (rand : Nat → ℚ) (maxRetries : Nat) (msg : String)
    (h1 : op 1 = .businessError msg) (hm : 1 ≤ maxRetries) :
    run_transaction op rand maxRetries =
      (.businessFailure msg, [.beginTxn, .invoke, .rollbackExit]) ∧
    invocations (run_transaction op rand maxRetries).2 = 1 ∧
    sleeps (run_transaction op rand maxRetries).2 = 0 ∧
    rollbacks (run_transaction op rand maxRetries).2 = 0 ∧
    errorMessage (run_transaction op rand maxRetries).1 = some msg ∧
    (∀ e, (run_transaction op rand maxRetries).1 ≠ .fatalError e) := by
  obtain ⟨m, rfl⟩ : ∃ m, maxRetries = m + 1 := ⟨maxRetries - 1, by omega⟩
  have hloop : runLoop op rand (m + 1) 1 (m + 1) =
      (.businessFailure msg, [.invoke]) := by
    simp [runLoop, h1]
  have htr : run_transaction op rand (m + 1) =
      (.businessFailure msg, [.beginTxn, .invoke, .rollbackExit]) := by
    simp only [run_transaction, hloop]
    rfl
  rw [htr]
  exact ⟨rfl, rfl, rfl, rfl, rfl, by intro e h; cases h⟩

/-- Witness for C5: the insufficient-funds business error with
`max_retries = 3`. -/
theorem run_transaction_business_error_witness :
    run_transaction (fun _ => .businessError "insufficient funds")
      (fun _ => 1 / 2) 3 =
      (.businessFailure "insufficient funds",
        [.beginTxn, .invoke, .rollbackExit]) ∧
    invocations (run_transaction (fun _ => .businessError "insufficient funds")
      (fun _ => 1 / 2) 3).2 = 1 ∧
    sleeps (run_transaction (fun _ => .businessError "insufficient funds")
      (fun _ => 1 / 2) 3).2 = 0 ∧
    rollbacks (run_transaction (fun _ => .businessError "insufficient funds")
      (fun _ => 1 / 2) 3).2 = 0 ∧
    errorMessage (run_transaction (fun _ => .businessError "insufficient funds")
      (fun _ => 1 / 2) 3).1 = some "insufficient funds" ∧
    (∀ e, (run_transaction (fun _ => .businessError "insufficient funds")
      (fun _ => 1 / 2) 3).1 ≠ .fatalError e) :=
  run_transaction_business_error (fun _ => .businessError "insufficient funds")
    (fun _ => 1 / 2) 3 "insufficient funds" rfl (by omega)

/-- C1: a unit of work that raises the retryable serialization failure on
exactly the first `k` invocations (`k < max_retries`) and succeeds on
invocation `k + 1` makes `run_transaction` return success after exactly
`k + 1` invocations, with exactly `k` explicit rollbacks and `k` sleeps (one
after each retryable failure) and no further attempts after the success; for
`k = 0` this is one attempt and zero sleeps. -/
theorem run_transaction_fail_then_succeed (op : Nat → UowOutcome)
    (rand : Nat → ℚ) (maxRetries k : Nat) (hk : k < maxRetries)
    (hfail : ∀ i, 1 ≤ i → i ≤ k → op i = .serializationFailure)
    (hsucc : op (k + 1) = .success) :
    run_transaction op rand maxRetries =
      (.committed,
        .beginTxn :: (failTraceFrom rand 1 k ++ [.invoke, .commitTxn])) ∧
    invocations (run_transaction op rand maxRetries).2 = k + 1 ∧
    rollbacks (run_transaction op rand maxRetries).2 = k ∧
    sleeps (run_transaction op rand maxRetries).2 = k := by
  have hfail' : ∀ j, j < k → op (1 + j) = .serializationFailure := by
    intro j hj
    exact hfail (1 + j) (by omega) (by omega)
  have hsucc' : op (1 + k) = .success := by
    have harr : 1 + k = k + 1 := by omega
    rw [harr]; exact hsucc
  have hloop := runLoop_failThenSucceed op rand maxRetries k 1 maxRetries hk
    hfail' hsucc'
  have htr : run_transaction op rand maxRetries =
      (.committed,
        .beginTxn :: (failTraceFrom rand 1 k ++ [.invoke, .commitTxn])) := by
    simp only [run_transaction, hloop]
    simp
  rw [htr]
  refine ⟨rfl, ?_, ?_, ?_⟩
  · have h := invocations_failTraceFrom rand k 1
    simp [invocations, List.countP_cons, List.countP_append] at h ⊢
    omega
  · have h := rollbacks_failTraceFrom rand k 1
    simp [rollbacks, List.countP_cons, List.countP_append] at h ⊢
    omega
  · have h := sleeps_failTraceFrom rand k 1
    simp [sleeps, List.countP_cons, List.countP_append] at h ⊢
    omega

/-- Witness for C1 with `k = 1` failures and `max_retries = 3`. -/
theorem run_transaction_fail_then_succeed_witness :
    run_transaction (fun i => if i ≤ 1 then .serializationFailure else .success)
      (fun _ => 1 / 2) 3 =
      (.committed,
        .beginTxn ::
          (failTraceFrom (fun _ => 1 / 2) 1 1 ++ [.invoke, .commitTxn])) ∧
    invocations (run_transaction
      (fun i => if i ≤ 1 then .serializationFailure else .success)
      (fun _ => 1 / 2) 3).2 = 1 + 1 ∧
    rollbacks (run_transaction
      (fun i => if i ≤ 1 then .serializationFailure else .success)
      (fun _ => 1 / 2) 3).2 = 1 ∧
    sleeps (run_transaction
      (fun i => if i ≤ 1 then .serializationFailure else .success)
      (fun _ => 1 / 2) 3).2 = 1 :=
  run_transaction_fail_then_succeed
    (fun i => if i ≤ 1 then .serializationFailure else .success)
    (fun _ => 1 / 2) 3 1 (by omega)
    (fun i h1 h2 => by
      have hi : i = 1 := by omega
      subst hi; rfl)
    (by rfl)

/-- C2: a unit of work that raises the retryable serialization failure on
every invocation is invoked exactly `max_retries` times, after which
`run_transaction` raises the `ValueError` (retries exhausted) — an error
distinct from every database error — whose message names `max_retries`; the
default retry bound is 3. -/
theorem run_transaction_retries_exhausted (op : Nat → UowOutcome)
    (rand : Nat → ℚ) (maxRetries : Nat)
    (hfail : ∀ i, op i = .serializationFailure) (hm : 1 ≤ maxRetries) :
    run_transaction op rand maxRetries =
      (.retriesExhausted maxRetries,
        .beginTxn :: failTraceFrom rand 1 maxRetries) ∧
    invocations (run_transaction op rand maxRetries).2 = maxRetries ∧
    (∀ e, (run_transaction op rand maxRetries).1 ≠ .fatalError e) ∧
    errorMessage (run_transaction op rand maxRetries).1 =
      some ("transaction did not succeed after " ++ toString maxRetries ++
        " retries") ∧
    run_transaction op rand = run_transaction op rand 3 := by
  obtain ⟨m, rfl⟩ : ∃ m, maxRetries = m + 1 := ⟨maxRetries - 1, by omega⟩
  have hloop := runLoop_allFail op rand (m + 1) hfail (m + 1) 1
  have hopen : openAfter false
      (Event.beginTxn :: failTraceFrom rand 1 (m + 1)) = false := by
    show openAfter true (failTraceFrom rand 1 (m + 1)) = false
    exact openAfter_failTraceFrom rand m 1 true
  have htr : run_transaction op rand (m + 1) =
      (.retriesExhausted (m + 1),
        .beginTxn :: failTraceFrom rand 1 (m + 1)) := by
    simp only [run_transaction, hloop]
    simp [hopen]
  rw [htr]
  refine ⟨rfl, ?_, ?_, rfl, rfl⟩
  · have h := invocations_failTraceFrom rand (m + 1) 1
    simp [invocations, List.countP_cons] at h ⊢
    omega
  · intro e h
    cases h

/-- Witness for C2 with an always-failing unit of work and the default bound
`max_retries = 3`. -/
theorem run_transaction_retries_exhausted_witness :
    run_transaction (fun _ => .serializationFailure) (fun _ => 1 / 2) 3 =
      (.retriesExhausted 3,
        .beginTxn :: failTraceFrom (fun _ => 1 / 2) 1 3) ∧
    invocations (run_transaction (fun _ => .serializationFailure)
      (fun _ => 1 / 2) 3).2 = 3 ∧
    (∀ e, (run_transaction (fun _ => .serializationFailure)
      (fun _ => 1 / 2) 3).1 ≠ .fatalError e) ∧
    errorMessage (run_transaction (fun _ => .serializationFailure)
      (fun _ => 1 / 2) 3).1 =
      some ("transaction did not succeed after " ++ toString 3 ++
        " retries") ∧
    run_transaction (fun _ => .serializationFailure) (fun _ => 1 / 2) =
      run_transaction (fun _ => .serializationFailure) (fun _ => 1 / 2) 3 :=
  run_transaction_retries_exhausted (fun _ => .serializationFailure)
    (fun _ => 1 / 2) 3 (fun _ => rfl) (by omega)

/-- C9: when every invocation raises the retryable serialization failure,
the handler runs (rollback and backoff sleep) after the final,
`max_retries`-th, failed attempt as well — `max_retries` sleeps in total —
and the very last event of the call is that final sleep, after which no
further attempt occurs before the retries-exhausted error is raised. -/
theorem run_transaction_final_attempt_sleeps (op : Nat → UowOutcome)
    (rand : Nat → ℚ) (maxRetries : Nat)
    (hfail : ∀ i, op i = .serializationFailure) (hm : 1 ≤ maxRetries) :
    (run_transaction op rand maxRetries).1 = .retriesExhausted maxRetries ∧
    sleeps (run_transaction op rand maxRetries).2 = maxRetries ∧
    rollbacks (run_transaction op rand maxRetries).2 = maxRetries ∧
    (run_transaction op rand maxRetries).2.getLast? =
      some (.sleep (sleep_seconds maxRetries (rand maxRetries))) := by
  obtain ⟨m, rfl⟩ : ∃ m, maxRetries = m + 1 := ⟨maxRetries - 1, by omega⟩
  have hloop := runLoop_allFail op rand (m + 1) hfail (m + 1) 1
  have hopen : openAfter false
      (Event.beginTxn :: failTraceFrom rand 1 (m + 1)) = false := by
    show openAfter true (failTraceFrom rand 1 (m + 1)) = false
    exact openAfter_failTraceFrom rand m 1 true
  have htr : run_transaction op rand (m + 1) =
      (.retriesExhausted (m + 1),
        .beginTxn :: failTraceFrom rand 1 (m + 1)) := by
    simp only [run_transaction, hloop]
    simp [hopen]
  rw [htr]
  refine ⟨rfl, ?_, ?_, ?_⟩
  · have h := sleeps_failTraceFrom rand (m + 1) 1
    simp [sleeps, List.countP_cons] at h ⊢
    omega
  · have h := rollbacks_failTraceFrom rand (m + 1) 1
    simp [rollbacks, List.countP_cons] at h ⊢
    omega
  · have h := getLast?_failTraceFrom rand m 1
    have harr : 1 + m = m + 1 := by omega
    rw [harr] at h
    rw [eventGetLast?_cons _ _ (failTraceFrom_ne_nil rand m 1)]
    exact h

/-- Witness for C9 with an always-failing unit of work and
`max_retries = 3`. -/
theorem run_transaction_final_attempt_sleeps_witness :
    (run_transaction (fun _ => .serializationFailure)
      (fun _ => (1 : ℚ) / 4) 3).1 = .retriesExhausted 3 ∧
    sleeps (run_transaction (fun _ => .serializationFailure)
      (fun _ => (1 : ℚ) / 4) 3).2 = 3 ∧
    rollbacks (run_transaction (fun _ => .serializationFailure)
      (fun _ => (1 : ℚ) / 4) 3).2 = 3 ∧
    (run_transaction (fun _ => .serializationFailure)
      (fun _ => (1 : ℚ) / 4) 3).2.getLast? =
      some (.sleep (sleep_seconds 3 ((fun _ => (1 : ℚ) / 4) 3))) :=
  run_transaction_final_attempt_sleeps (fun _ => .serializationFailure)
    (fun _ => (1 : ℚ) / 4) 3 (fun _ => rfl) (by omega)

theorem loopOpen_committed (rem : Nat) (st : Bool) :
    loopOpen .committed rem st = true := by
  cases rem <;> rfl

theorem loopOpen_fatal (e : String) (rem : Nat) (st : Bool) :
    loopOpen (.fatalError e) rem st = true := by
  cases rem <;> rfl

theorem loopOpen_business (msg : String) (rem : Nat) (st : Bool) :
    loopOpen (.businessFailure msg) rem st = true := by
  cases rem <;> rfl

theorem loopOpen_exhausted_succ (n m : Nat) (st : Bool) :
    loopOpen (.retriesExhausted n) (m + 1) st = false := rfl

/-- C6: on every exit path of `run_transaction` the event trace is
scope-legal — a transaction is begun only when none is open (so at most one
is open at any point), commit and rollback act only on an open transaction —
no transaction remains open at the end of the trace, and a commit (the one
performed by the scope on normal return) occurs exactly when the call
succeeds; on every exceptional exit there is no commit, so the closure was a
rollback. -/
theorem run_transaction_scope_discipline (op : Nat → UowOutcome)
    (rand : Nat → ℚ) (maxRetries : Nat) :
    legalTrace false (run_transaction op rand maxRetries).2 = true ∧
    openAfter false (run_transaction op rand maxRetries).2 = false ∧
    commits (run_transaction op rand maxRetries).2 =
      (if (run_transaction op rand maxRetries).1 = .committed then 1
        else 0) := by
  obtain ⟨hleg, hopen⟩ := runLoop_scope op rand maxRetries maxRetries 1 true
  have hcom := commits_runLoop op rand maxRetries maxRetries 1
  cases hres : (runLoop op rand maxRetries 1 maxRetries).1 with
  | committed =>
    rw [hres, loopOpen_committed] at hopen
    have htr : run_transaction op rand maxRetries =
        (.committed,
          Event.beginTxn ::
            ((runLoop op rand maxRetries 1 maxRetries).2 ++
              [Event.commitTxn])) := by
      simp only [run_transaction, hres]
      simp
    rw [htr]
    refine ⟨?_, ?_, ?_⟩
    · show legalTrace true
        ((runLoop op rand maxRetries 1 maxRetries).2 ++ [Event.commitTxn]) =
        true
      rw [legalTrace_append, hleg, hopen]
      rfl
    · show openAfter true
        ((runLoop op rand maxRetries 1 maxRetries).2 ++ [Event.commitTxn]) =
        false
      rw [openAfter_append, hopen]
      rfl
    · simp [commits, List.countP_cons, List.countP_append]
      simpa [commits] using hcom
  | fatalError e =>
    rw [hres, loopOpen_fatal] at hopen
    have hcond : openAfter false
        (Event.beginTxn :: (runLoop op rand maxRetries 1 maxRetries).2) =
        true := hopen
    have htr : run_transaction op rand maxRetries =
        (.fatalError e,
          Event.beginTxn ::
            ((runLoop op rand maxRetries 1 maxRetries).2 ++
              [Event.rollbackExit])) := by
      simp only [run_transaction, hres]
      simp [hcond]
    rw [htr]
    refine ⟨?_, ?_, ?_⟩
    · show legalTrace true
        ((runLoop op rand maxRetries 1 maxRetries).2 ++
          [Event.rollbackExit]) = true
      rw [legalTrace_append, hleg, hopen]
      rfl
    · show openAfter true
        ((runLoop op rand maxRetries 1 maxRetries).2 ++
          [Event.rollbackExit]) = false
      rw [openAfter_append, hopen]
      rfl
    · simp [commits, List.countP_cons, List.countP_append]
      simpa [commits] using hcom
  | businessFailure msg =>
    rw [hres, loopOpen_business] at hopen
    have hcond : openAfter false
        (Event.beginTxn :: (runLoop op rand maxRetries 1 maxRetries).2) =
        true := hopen
    have htr : run_transaction op rand maxRetries =
        (.businessFailure msg,
          Event.beginTxn ::
            ((runLoop op rand maxRetries 1 maxRetries).2 ++
              [Event.rollbackExit])) := by
      simp only [run_transaction, hres]
      simp [hcond]
    rw [htr]
    refine ⟨?_, ?_, ?_⟩
    · show legalTrace true
        ((runLoop op rand maxRetries 1 maxRetries).2 ++
          [Event.rollbackExit]) = true
      rw [legalTrace_append, hleg, hopen]
      rfl
    · show openAfter true
        ((runLoop op rand maxRetries 1 maxRetries).2 ++
          [Event.rollbackExit]) = false
      rw [openAfter_append, hopen]
      rfl
    · simp [commits, List.countP_cons, List.countP_append]
      simpa [commits] using hcom
  | retriesExhausted n =>
    cases maxRetries with
    | zero =>
      have htr : run_transaction op rand 0 =
          (.retriesExhausted 0, [.beginTxn, .rollbackExit]) := rfl
      rw [htr]
      exact ⟨rfl, rfl, rfl⟩
    | succ m =>
      rw [hres, loopOpen_exhausted_succ] at hopen
      have hcond : openAfter false
          (Event.beginTxn :: (runLoop op rand (m + 1) 1 (m + 1)).2) =
          false := hopen
      have htr : run_transaction op rand (m + 1) =
          (.retriesExhausted n,
            Event.beginTxn :: (runLoop op rand (m + 1) 1 (m + 1)).2) := by
        simp only [run_transaction, hres]
        simp [hcond]
      rw [htr]
      refine ⟨?_, ?_, ?_⟩
      · show legalTrace true (runLoop op rand (m + 1) 1 (m + 1)).2 = true
        exact hleg
      · show openAfter true (runLoop op rand (m + 1) 1 (m + 1)).2 = false
        exact hopen
      · simp [commits, List.countP_cons]
        simpa [commits] using hcom

/-- C8: two runs with the same unit-of-work failure pattern and the same
`max_retries` but different random draws produce the same result, the same
control-flow skeleton (the trace with sleep durations erased — in
particular, the same sequence of rollbacks), and the same numbers of
invocations, rollbacks, and sleeps: the jitter influences only the sleep
durations. -/
theorem run_transaction_jitter_independent (op : Nat → UowOutcome)
    (r₁ r₂ : Nat → ℚ) (maxRetries : Nat) :
    (run_transaction op r₁ maxRetries).1 =
      (run_transaction op r₂ maxRetries).1 ∧
    controlTrace (run_transaction op r₁ maxRetries).2 =
      controlTrace (run_transaction op r₂ maxRetries).2 ∧
    invocations (run_transaction op r₁ maxRetries).2 =
      invocations (run_transaction op r₂ maxRetries).2 ∧
    rollbacks (run_transaction op r₁ maxRetries).2 =
      rollbacks (run_transaction op r₂ maxRetries).2 ∧
    sleeps (run_transaction op r₁ maxRetries).2 =
      sleeps (run_transaction op r₂ maxRetries).2 := by
  obtain ⟨hres, hct⟩ :=
    runLoop_rand_independent op r₁ r₂ maxRetries maxRetries 1
  have hopen : openAfter true (runLoop op r₁ maxRetries 1 maxRetries).2 =
      openAfter true (runLoop op r₂ maxRetries 1 maxRetries).2 := by
    rw [← openAfter_controlTrace, hct, openAfter_controlTrace]
  have hmain :
      (run_transaction op r₁ maxRetries).1 =
        (run_transaction op r₂ maxRetries).1 ∧
      controlTrace (run_transaction op r₁ maxRetries).2 =
        controlTrace (run_transaction op r₂ maxRetries).2 := by
    cases hr1 : (runLoop op r₁ maxRetries 1 maxRetries).1 with
    | committed =>
      have hr2 : (runLoop op r₂ maxRetries 1 maxRetries).1 = .committed := by
        rw [← hres, hr1]
      simp only [run_transaction, hr1, hr2]
      refine ⟨by trivial, ?_⟩
      show controlTrace (Event.beginTxn ::
          ((runLoop op r₁ maxRetries 1 maxRetries).2 ++ [Event.commitTxn])) =
        controlTrace (Event.beginTxn ::
          ((runLoop op r₂ maxRetries 1 maxRetries).2 ++ [Event.commitTxn]))
      show Event.beginTxn :: controlTrace
          ((runLoop op r₁ maxRetries 1 maxRetries).2 ++ [Event.commitTxn]) = _
      rw [controlTrace_append, hct, ← controlTrace_append]
      rfl
    | fatalError e =>
      have hr2 : (runLoop op r₂ maxRetries 1 maxRetries).1 =
          .fatalError e := by
        rw [← hres, hr1]
      simp only [run_transaction, hr1, hr2]
      have hcond : openAfter false (Event.beginTxn ::
          (runLoop op r₁ maxRetries 1 maxRetries).2) =
        openAfter false (Event.beginTxn ::
          (runLoop op r₂ maxRetries 1 maxRetries).2) := hopen
      rw [hcond]
      cases hb : openAfter false (Event.beginTxn ::
          (runLoop op r₂ maxRetries 1 maxRetries).2) with
      | true =>
        simp only [if_pos]
        refine ⟨by trivial, ?_⟩
        show Event.beginTxn :: controlTrace
            ((runLoop op r₁ maxRetries 1 maxRetries).2 ++
              [Event.rollbackExit]) = _
        rw [controlTrace_append, hct, ← controlTrace_append]
        rfl
      | false =>
        simp only [Bool.false_eq_true, if_neg, not_false_iff]
        refine ⟨by trivial, ?_⟩
        show Event.beginTxn ::
            controlTrace (runLoop op r₁ maxRetries 1 maxRetries).2 = _
        rw [hct]
        rfl
    | businessFailure msg =>
      have hr2 : (runLoop op r₂ maxRetries 1 maxRetries).1 =
          .businessFailure msg := by
        rw [← hres, hr1]
      simp only [run_transaction, hr1, hr2]
      have hcond : openAfter false (Event.beginTxn ::
          (runLoop op r₁ maxRetries 1 maxRetries).2) =
        openAfter false (Event.beginTxn ::
          (runLoop op r₂ maxRetries 1 maxRetries).2) := hopen
      rw [hcond]
      cases hb : openAfter false (Event.beginTxn ::
          (runLoop op r₂ maxRetries 1 maxRetries).2) with
      | true =>
        simp only [if_pos]
        refine ⟨by trivial, ?_⟩
        show Event.beginTxn :: controlTrace
            ((runLoop op r₁ maxRetries 1 maxRetries).2 ++
              [Event.rollbackExit]) = _
        rw [controlTrace_append, hct, ← controlTrace_append]
        rfl
      | false =>
        simp only [Bool.false_eq_true, if_neg, not_false_iff]
        refine ⟨by trivial, ?_⟩
        show Event.beginTxn ::
            controlTrace (runLoop op r₁ maxRetries 1 maxRetries).2 = _
        rw [hct]
        rfl
    | retriesExhausted n =>
      have hr2 : (runLoop op r₂ maxRetries 1 maxRetries).1 =
          .retriesExhausted n := by
        rw [← hres, hr1]
      simp only [run_transaction, hr1, hr2]
      have hcond : openAfter false (Event.beginTxn ::
          (runLoop op r₁ maxRetries 1 maxRetries).2) =
        openAfter false (Event.beginTxn ::
          (runLoop op r₂ maxRetries 1 maxRetries).2) := hopen
      rw [hcond]
      cases hb : openAfter false (Event.beginTxn ::
          (runLoop op r₂ maxRetries 1 maxRetries).2) with
      | true =>
        simp only [if_pos]
        refine ⟨by trivial, ?_⟩
        show Event.beginTxn :: controlTrace
            ((runLoop op r₁ maxRetries 1 maxRetries).2 ++
              [Event.rollbackExit]) = _
        rw [controlTrace_append, hct, ← controlTrace_append]
        rfl
      | false =>
        simp only [Bool.false_eq_true, if_neg, not_false_iff]
        refine ⟨by trivial, ?_⟩
        show Event.beginTxn ::
            controlTrace (runLoop op r₁ maxRetries 1 maxRetries).2 = _
        rw [hct]
        rfl
  refine ⟨hmain.1, hmain.2, ?_, ?_, ?_⟩
  · rw [← invocations_controlTrace, hmain.2, invocations_controlTrace]
  · rw [← rollbacks_controlTrace, hmain.2, rollbacks_controlTrace]
  · rw [← sleeps_controlTrace, hmain.2, sleeps_controlTrace]

/-- C7, counterexample: in the end-to-end scenario `main` pops `toId` first
(the 250-account) and `fromId` second (the 1000-account), so the transfer of
100 is *from* the 1000-account; its source balance is 1000, not 250, and the
final balances are `(900, 350)`, not `(1150, 150)` as the claim states. -/
theorem main_scenario_counterexample :
    create_accounts mainFromId = 1000 ∧
    create_accounts mainToId = 250 ∧
    resultBalances mainTransfer = some (900, 350) ∧
    resultBalances mainTransfer ≠ some (1150, 150) := by
  refine ⟨by decide, by decide, by decide, by decide⟩

/-- C7 (amended): the program transfers 100 from the 1000-account
(`fromId`, the first-created account) to the 250-account: when the source
balance is at least 100 the final balances are the source balance less 100
and the destination balance plus 100 — `(900, 350)` in the concrete scenario
— and when the source balance is below 100 `transfer_funds` raises the
business error naming insufficient funds, producing no updated balances (the
transaction is rolled back, so neither balance changes). -/
theorem main_scenario_amended (b1 b2 : Int) :
    resultBalances (transfer_funds (balanceTable b1 b2) mainFromId mainToId
        mainAmount) =
      (if b1 < mainAmount then none else some (b1 - 100, b2 + 100)) ∧
    transferError (transfer_funds (balanceTable b1 b2) mainFromId mainToId
        mainAmount) =
      (if b1 < mainAmount then
        some ("insufficient funds in " ++ accountName mainFromId ++
          ": have " ++ toString b1 ++ ", need " ++ toString mainAmount)
      else none) ∧
    resultBalances mainTransfer = some (900, 350) := by
  have hfrom : mainFromId = .acct1 := by decide
  have hto : mainToId = .acct2 := by decide
  rw [hfrom, hto]
  by_cases h : b1 < mainAmount
  · simp only [transfer_funds, balanceTable, mainAmount] at *
    simp [h, resultBalances, transferError]
    decide
  · simp only [transfer_funds, balanceTable, mainAmount] at *
    simp [h, resultBalances, transferError]
    decide
